import Mathlib

/-!
Verification of the Guards repository: the NestJS `AuthGuard`
(src/guards/auth.guard.ts) and `BusinessGuard` (src/guards/business.guard.ts),
the `AuthMetaData` decorator, the reflector's metadata override lookup, and
the ordered guard composition bound to the `/test` route by
`@UseGuards(AuthGuard, BusinessGuard)` in src/app.controller.ts.

Headers are modelled as an association list from string keys to string
values; the request object's `headers` field is an `Option` so that the
JavaScript `undefined`/`null` edge case is representable.  A guard's
evaluation is a state-passing function from the execution context to a
verdict (`Except Unit Bool`: `.ok b` is an ordinary boolean return, `.error`
a thrown exception) paired with the post-state of the context.
-/

/-- A request's header mapping: string keys to string values. -/
abbrev Headers := List (String × String)

/-- The inbound request object as the guards see it: its `headers` field may
be `undefined`/`null` in JavaScript, modelled as `none`. -/
structure Request where
  headers : Option Headers
deriving DecidableEq

/-- The execution context handed to a guard: the request plus the metadata
attached (under the key `authorized`) at the handler site and at the
controller-class site, each possibly undefined. -/
structure Ctx where
  req : Request
  handlerMeta : Option (List String)
  classMeta : Option (List String)
deriving DecidableEq

/-- JavaScript strict equality `v === s` between a possibly-undefined string
value and a string literal: `undefined === s` is false. -/
def strictEq (v : Option String) (s : String) : Bool :=
  match v with
  | some t => t == s
  | none => false

/-- JavaScript truthiness of a possibly-undefined string value: `undefined`
and the empty string are falsy, every other string is truthy. -/
def jsTruthyStr (v : Option String) : Bool :=
  match v with
  | none => false
  | some s => !(s == "")

/-- JavaScript optional chaining plus `Array.includes`:
`m?.includes(tag)` is false when `m` is `undefined`, else a membership test. -/
def optIncludes (m : Option (List String)) (tag : String) : Bool :=
  match m with
  | none => false
  | some l => l.contains tag

/-- The `AuthMetaData` decorator (src/auth.metadata.decorator.ts):
`SetMetadata('authorized', metadata)` attaches the given tag sequence under
the key `authorized`, so the decorated site carries a defined sequence. -/
def AuthMetaData (metadata : List String) : Option (List String) :=
  some metadata

/-- Modelled from the spec: the router's reflection lookup
`getMetadata(key, [handlerRef, groupRef])` (`Reflector.getAllAndOverride`,
which lives in the external framework, not in this repository) — the
handler-level definition, when present, overrides the group-level one
entirely (no merging); undefined at both sites yields undefined. -/
def getAllAndOverride (handlerMeta classMeta : Option (List String)) :
    Option (List String) :=
  match handlerMeta with
  | some l => some l
  | none => classMeta

/-- Reading `request.headers`: a plain field read, leaving the context
unchanged. -/
def readHeaders (c : Ctx) : Option Headers × Ctx :=
  (c.req.headers, c)

/-- Reading `request.headers[k]`: throws (`.error`) when `headers` itself is
`undefined`, matching a JavaScript property access on `undefined`; otherwise
a pure read of the entry, leaving the context unchanged. -/
def readHeaderKey (c : Ctx) (k : String) : Except Unit (Option String) × Ctx :=
  match c.req.headers with
  | none => (.error (), c)
  | some hs => (.ok (hs.lookup k), c)

/-- Reading the metadata for key `authorized` resolved through the
reflector, leaving the context unchanged. -/
def readMeta (c : Ctx) : Option (List String) × Ctx :=
  (getAllAndOverride c.handlerMeta c.classMeta, c)

/-- `AuthGuard.canActivate` (src/guards/auth.guard.ts), state-passing form:
reads `request.headers` into `apiKey`, resolves the `authorized` metadata; if
the resolved sequence includes `SkipAuthorizationCheck` returns true; else
returns true iff `apiKey` is truthy and `apiKey.api_key === 'MY_API_KEY'`
(the conjunction short-circuits, so the field access only happens on a
truthy headers object); else false. -/
def AuthGuard.canActivateS (c : Ctx) : Except Unit Bool × Ctx :=
  let p1 := readHeaders c
  let apiKey := p1.1
  let p2 := readMeta p1.2
  let authMetaData := p2.1
  let c2 := p2.2
  if optIncludes authMetaData "SkipAuthorizationCheck" then (.ok true, c2)
  else
    match apiKey with
    | none => (.ok false, c2)
    | some hs =>
      if strictEq (hs.lookup "api_key") "MY_API_KEY" then (.ok true, c2)
      else (.ok false, c2)

/-- The verdict of `AuthGuard.canActivate`. -/
def AuthGuard.canActivate (c : Ctx) : Except Unit Bool :=
  (AuthGuard.canActivateS c).1

/-- `BusinessGuard.canActivate` (src/guards/business.guard.ts),
state-passing form: reads `request.headers['business_id']` (no truthiness
guard on the headers object itself), then returns true iff `businessID` is
truthy and `businessID === '892367480'`; else false. -/
def BusinessGuard.canActivateS (c : Ctx) : Except Unit Bool × Ctx :=
  let p := readHeaderKey c "business_id"
  let c1 := p.2
  match p.1 with
  | .error e => (.error e, c1)
  | .ok businessID =>
    if jsTruthyStr businessID && strictEq businessID "892367480" then
      (.ok true, c1)
    else (.ok false, c1)

/-- The verdict of `BusinessGuard.canActivate`. -/
def BusinessGuard.canActivate (c : Ctx) : Except Unit Bool :=
  (BusinessGuard.canActivateS c).1

/-- Modelled from the spec: the router's binding/composition policy (spec
section 4.4) — evaluate the bound guards strictly in order, short-circuiting
on the first deny (a thrown guard likewise halts evaluation).  Returns the
names of the guards actually evaluated together with the end-to-end verdict
(`.ok true` means dispatch to the handler). -/
def runGuardsTrace : List (String × (Ctx → Except Unit Bool)) → Ctx →
    List String × Except Unit Bool
  | [], _ => ([], .ok true)
  | (n, g) :: gs, c =>
    match g c with
    | .ok true =>
      let r := runGuardsTrace gs c
      (n :: r.1, r.2)
    | .ok false => ([n], .ok false)
    | .error e => ([n], .error e)

/-- The ordered guard binding of the `/test` route:
`@UseGuards(AuthGuard, BusinessGuard)` in src/app.controller.ts. -/
def testRouteGuards : List (String × (Ctx → Except Unit Bool)) :=
  [("AuthGuard", AuthGuard.canActivate),
   ("BusinessGuard", BusinessGuard.canActivate)]

/-- The bare credential check of the AuthGuard non-bypass path: the headers
object is present and its `api_key` entry strictly equals the secret. -/
def apiKeyCheck (hdrs : Option Headers) : Bool :=
  match hdrs with
  | none => false
  | some hs => strictEq (hs.lookup "api_key") "MY_API_KEY"

lemma jsTruthyStr_and_strictEq (v : Option String) :
    (jsTruthyStr v && strictEq v "892367480") = strictEq v "892367480" := by
  cases v with
  | none => rfl
  | some s =>
    cases h : s == "892367480" with
    | false => simp [jsTruthyStr, strictEq, h]
    | true =>
      have hs : s = "892367480" := by simpa using h
      subst hs
      decide

lemma businessGuard_state_fixed (c : Ctx) : (BusinessGuard.canActivateS c).2 = c := by
  unfold BusinessGuard.canActivateS readHeaderKey
  cases h : c.req.headers <;> simp [h]
  split <;> rfl

lemma authGuard_state_fixed (c : Ctx) : (AuthGuard.canActivateS c).2 = c := by
  unfold AuthGuard.canActivateS readHeaders readMeta
  cases h : c.req.headers <;> simp [h] <;> split <;> first | rfl | (split <;> rfl)

lemma AuthGuard.eval_bypass (hdrs : Option Headers) (hm cm : Option (List String))
    (hb : optIncludes (getAllAndOverride hm cm) "SkipAuthorizationCheck" = true) :
    AuthGuard.canActivate ⟨⟨hdrs⟩, hm, cm⟩ = .ok true := by
  simp [AuthGuard.canActivate, AuthGuard.canActivateS, readHeaders, readMeta, hb]

lemma AuthGuard.eval_nobypass (hdrs : Option Headers) (hm cm : Option (List String))
    (hnb : optIncludes (getAllAndOverride hm cm) "SkipAuthorizationCheck" = false) :
    AuthGuard.canActivate ⟨⟨hdrs⟩, hm, cm⟩ = .ok (apiKeyCheck hdrs) := by
  cases hdrs with
  | none =>
    simp [AuthGuard.canActivate, AuthGuard.canActivateS, readHeaders, readMeta,
      hnb, apiKeyCheck]
  | some H =>
    cases h : strictEq (H.lookup "api_key") "MY_API_KEY" <;>
      simp [AuthGuard.canActivate, AuthGuard.canActivateS, readHeaders, readMeta,
        hnb, apiKeyCheck, h]

lemma BusinessGuard.eval_some (H : Headers) (hm cm : Option (List String)) :
    BusinessGuard.canActivate ⟨⟨some H⟩, hm, cm⟩ =
      .ok (strictEq (H.lookup "business_id") "892367480") := by
  have key := jsTruthyStr_and_strictEq (H.lookup "business_id")
  cases h : strictEq (H.lookup "business_id") "892367480" with
  | true =>
    have h2 : (jsTruthyStr (H.lookup "business_id") &&
        strictEq (H.lookup "business_id") "892367480") = true := by rw [key, h]
    have h3 : jsTruthyStr (H.lookup "business_id") = true := by simpa [h] using h2
    simp [BusinessGuard.canActivate, BusinessGuard.canActivateS, readHeaderKey,
      h2, h3, h]
  | false =>
    have h2 : (jsTruthyStr (H.lookup "business_id") &&
        strictEq (H.lookup "business_id") "892367480") = false := by rw [key, h]
    simp [BusinessGuard.canActivate, BusinessGuard.canActivateS, readHeaderKey, h2, h]

/-- C1: with a header mapping present and no bypass metadata applying,
`AuthGuard.canActivate` returns allow exactly when the `api_key` entry
equals the fixed secret `MY_API_KEY`, deny for every other value, including
an absent key. -/
theorem AuthGuard.credential_decides (H : Headers) (hm cm : Option (List String))
    (hnb : optIncludes (getAllAndOverride hm cm) "SkipAuthorizationCheck" = false) :
    AuthGuard.canActivate ⟨⟨some H⟩, hm, cm⟩ =
      .ok (strictEq (H.lookup "api_key") "MY_API_KEY") := by
  cases h : strictEq (H.lookup "api_key") "MY_API_KEY" <;>
    simp [AuthGuard.canActivate, AuthGuard.canActivateS, readHeaders, readMeta,
      hnb, h]

/-- Witness for C1 at the header mapping carrying the correct secret and no
metadata at either site. -/
theorem AuthGuard.credential_decides_witness :
    optIncludes (getAllAndOverride none none) "SkipAuthorizationCheck" = false ∧
    AuthGuard.canActivate ⟨⟨some [("api_key", "MY_API_KEY")]⟩, none, none⟩ =
      .ok (strictEq ((([("api_key", "MY_API_KEY")] : Headers).lookup "api_key"))
        "MY_API_KEY") :=
  ⟨rfl, AuthGuard.credential_decides [("api_key", "MY_API_KEY")] none none rfl⟩

/-- C2: whenever the resolved metadata sequence for the key `authorized`
contains `SkipAuthorizationCheck`, `AuthGuard.canActivate` returns allow
regardless of the request's headers — even when the headers object is
entirely absent — because the bypass check precedes the credential check. -/
theorem AuthGuard.bypass_dominates (hm cm : Option (List String))
    (l : List String) (hres : getAllAndOverride hm cm = some l)
    (htag : l.contains "SkipAuthorizationCheck" = true) (hdrs : Option Headers) :
    AuthGuard.canActivate ⟨⟨hdrs⟩, hm, cm⟩ = .ok true := by
  apply AuthGuard.eval_bypass
  simp only [optIncludes, hres]
  exact htag

/-- Witness for C2 with the tag attached at the handler site and no
`api_key` header present at all. -/
theorem AuthGuard.bypass_dominates_witness :
    getAllAndOverride (some ["SkipAuthorizationCheck"]) none =
      some ["SkipAuthorizationCheck"] ∧
    (["SkipAuthorizationCheck"] : List String).contains "SkipAuthorizationCheck" =
      true ∧
    AuthGuard.canActivate ⟨⟨none⟩, some ["SkipAuthorizationCheck"], none⟩ =
      .ok true :=
  ⟨rfl, rfl,
    AuthGuard.bypass_dominates (some ["SkipAuthorizationCheck"]) none
      ["SkipAuthorizationCheck"] rfl rfl none⟩

/-- C3: the `/test` route composes [AuthGuard, BusinessGuard] as a strict
ordered AND with short-circuit: when AuthGuard denies, only AuthGuard is
evaluated and the verdict is deny; when AuthGuard allows, BusinessGuard's
verdict decides; dispatch (allow) happens exactly when both allow; at the
headers carrying only the correct `api_key` (no `business_id`) the composed
verdict is deny. -/
theorem testRoute_strict_ordered_and (c : Ctx) :
    runGuardsTrace testRouteGuards c =
      (match AuthGuard.canActivate c with
       | .ok true => (["AuthGuard", "BusinessGuard"], BusinessGuard.canActivate c)
       | .ok false => (["AuthGuard"], .ok false)
       | .error e => (["AuthGuard"], .error e)) ∧
    ((runGuardsTrace testRouteGuards c).2 = .ok true ↔
      AuthGuard.canActivate c = .ok true ∧ BusinessGuard.canActivate c = .ok true) ∧
    runGuardsTrace testRouteGuards ⟨⟨some [("api_key", "MY_API_KEY")]⟩, none, none⟩ =
      (["AuthGuard", "BusinessGuard"], .ok false) := by
  refine ⟨?_, ?_, rfl⟩
  · cases hA : AuthGuard.canActivate c with
    | error e => simp [runGuardsTrace, testRouteGuards, hA]
    | ok b =>
      cases b with
      | false => simp [runGuardsTrace, testRouteGuards, hA]
      | true =>
        cases hB : BusinessGuard.canActivate c with
        | error e => simp [runGuardsTrace, testRouteGuards, hA, hB]
        | ok b2 => cases b2 <;> simp [runGuardsTrace, testRouteGuards, hA, hB]
  · cases hA : AuthGuard.canActivate c with
    | error e => simp [runGuardsTrace, testRouteGuards, hA]
    | ok b =>
      cases b with
      | false => simp [runGuardsTrace, testRouteGuards, hA]
      | true =>
        cases hB : BusinessGuard.canActivate c with
        | error e => simp [runGuardsTrace, testRouteGuards, hA, hB]
        | ok b2 => cases b2 <;> simp [runGuardsTrace, testRouteGuards, hA, hB]

/-- C4: with a header mapping present, `BusinessGuard.canActivate` returns
allow exactly when the `business_id` entry strictly equals the string
`892367480` (absent key or any other value denies), and its verdict is
independent of the `authorized` metadata at both attachment sites. -/
theorem BusinessGuard.exact_string_match (H : Headers)
    (hm cm hm2 cm2 : Option (List String)) :
    BusinessGuard.canActivate ⟨⟨some H⟩, hm, cm⟩ =
      .ok (strictEq (H.lookup "business_id") "892367480") ∧
    BusinessGuard.canActivate ⟨⟨some H⟩, hm, cm⟩ =
      BusinessGuard.canActivate ⟨⟨some H⟩, hm2, cm2⟩ :=
  ⟨BusinessGuard.eval_some H hm cm,
   (BusinessGuard.eval_some H hm cm).trans (BusinessGuard.eval_some H hm2 cm2).symm⟩

/-- C5: when both the handler and the class site define an `authorized`
metadata sequence, the resolved sequence is the handler's in its entirety;
a handler whose own sequence lacks the bypass tag does not inherit the
group's tag, and AuthGuard falls through to the bare credential check. -/
theorem metadata_handler_overrides_group (l g : List String) (hdrs : Option Headers)
    (hnotag : l.contains "SkipAuthorizationCheck" = false) :
    getAllAndOverride (AuthMetaData l) (AuthMetaData g) = some l ∧
    AuthGuard.canActivate ⟨⟨hdrs⟩, AuthMetaData l, AuthMetaData g⟩ =
      .ok (apiKeyCheck hdrs) :=
  ⟨rfl, AuthGuard.eval_nobypass hdrs (AuthMetaData l) (AuthMetaData g)
    (by simpa [optIncludes, getAllAndOverride, AuthMetaData] using hnotag)⟩

/-- Witness for C5: handler metadata without the tag, group metadata with
it, no headers — the group's tag is not inherited and the guard denies. -/
theorem metadata_handler_overrides_group_witness :
    ([] : List String).contains "SkipAuthorizationCheck" = false ∧
    getAllAndOverride (AuthMetaData []) (AuthMetaData ["SkipAuthorizationCheck"]) =
      some [] ∧
    AuthGuard.canActivate
        ⟨⟨none⟩, AuthMetaData [], AuthMetaData ["SkipAuthorizationCheck"]⟩ =
      .ok (apiKeyCheck none) := by
  have h := metadata_handler_overrides_group [] ["SkipAuthorizationCheck"] none rfl
  exact ⟨rfl, h.1, h.2⟩

/-- C6: with the `authorized` key undefined at both the handler and the
class site, AuthGuard behaves exactly as if the metadata sequence were
empty, does not bypass, does not fail, and performs the `api_key`
credential check. -/
theorem metadata_undefined_as_empty (hdrs : Option Headers) :
    AuthGuard.canActivate ⟨⟨hdrs⟩, none, none⟩ =
      AuthGuard.canActivate ⟨⟨hdrs⟩, AuthMetaData [], none⟩ ∧
    AuthGuard.canActivate ⟨⟨hdrs⟩, none, none⟩ = .ok (apiKeyCheck hdrs) := by
  have h1 := AuthGuard.eval_nobypass hdrs none none rfl
  have h2 := AuthGuard.eval_nobypass hdrs (AuthMetaData []) none rfl
  exact ⟨h1.trans h2.symm, h1⟩

/-- C7: on every context carrying a header mapping, each guard terminates
with an ordinary boolean verdict (never a thrown error): missing entries,
wrong values and absent metadata all collapse to a plain deny value. -/
theorem guards_total_boolean (H : Headers) (hm cm : Option (List String))
    (hdrs : Option Headers) :
    (∃ b, AuthGuard.canActivate ⟨⟨hdrs⟩, hm, cm⟩ = .ok b) ∧
    (∃ b, BusinessGuard.canActivate ⟨⟨some H⟩, hm, cm⟩ = .ok b) := by
  constructor
  · cases hb : optIncludes (getAllAndOverride hm cm) "SkipAuthorizationCheck" with
    | true => exact ⟨true, AuthGuard.eval_bypass hdrs hm cm hb⟩
    | false => exact ⟨apiKeyCheck hdrs, AuthGuard.eval_nobypass hdrs hm cm hb⟩
  · exact ⟨_, BusinessGuard.eval_some H hm cm⟩

/-- C8: each guard's verdict is a deterministic pure function of the
context — equal contexts yield equal verdicts — and evaluating the sibling
guard first leaves the context, and hence the guard's verdict, unchanged,
so the verdict does not depend on evaluation order among siblings. -/
theorem guards_deterministic_order_independent (c c2 : Ctx) (h : c = c2) :
    AuthGuard.canActivate c = AuthGuard.canActivate c2 ∧
    BusinessGuard.canActivate c = BusinessGuard.canActivate c2 ∧
    (AuthGuard.canActivateS (BusinessGuard.canActivateS c).2).1 =
      AuthGuard.canActivate c ∧
    (BusinessGuard.canActivateS (AuthGuard.canActivateS c).2).1 =
      BusinessGuard.canActivate c := by
  subst h
  refine ⟨rfl, rfl, ?_, ?_⟩
  · rw [businessGuard_state_fixed]; rfl
  · rw [authGuard_state_fixed]; rfl

/-- Witness for C8 at a concrete context compared with itself. -/
theorem guards_deterministic_order_independent_witness :
    (⟨⟨some []⟩, none, none⟩ : Ctx) = (⟨⟨some []⟩, none, none⟩ : Ctx) ∧
    (AuthGuard.canActivateS
        (BusinessGuard.canActivateS (⟨⟨some []⟩, none, none⟩ : Ctx)).2).1 =
      AuthGuard.canActivate (⟨⟨some []⟩, none, none⟩ : Ctx) :=
  ⟨rfl, (guards_deterministic_order_independent
    (⟨⟨some []⟩, none, none⟩ : Ctx) (⟨⟨some []⟩, none, none⟩ : Ctx) rfl).2.2.1⟩

/-- C9: when the request's headers object is entirely absent
(`undefined`/`null`) and no bypass metadata applies, AuthGuard returns an
ordinary deny rather than failing: the truthiness check on the headers
object guards the `api_key` field access. -/
theorem AuthGuard.missing_headers_denies (hm cm : Option (List String))
    (hnb : optIncludes (getAllAndOverride hm cm) "SkipAuthorizationCheck" = false) :
    AuthGuard.canActivate ⟨⟨none⟩, hm, cm⟩ = .ok false :=
  AuthGuard.eval_nobypass none hm cm hnb

/-- Witness for C9 with no metadata at either site. -/
theorem AuthGuard.missing_headers_denies_witness :
    optIncludes (getAllAndOverride none none) "SkipAuthorizationCheck" = false ∧
    AuthGuard.canActivate ⟨⟨none⟩, none, none⟩ = .ok false :=
  ⟨rfl, AuthGuard.missing_headers_denies none none rfl⟩

/-- C10: BusinessGuard's evaluation leaves the context — in particular the
request and its header mapping — exactly as it found it. -/
theorem BusinessGuard.no_mutation (c : Ctx) :
    (BusinessGuard.canActivateS c).2 = c ∧
    ((BusinessGuard.canActivateS c).2).req.headers = c.req.headers :=
  ⟨businessGuard_state_fixed c, by rw [businessGuard_state_fixed]⟩
